import Mathlib

/-!
Verification development for the MIDI-to-TJA chart conversion engine
(`midi_to_tja.py`).  The Python source is shallowly embedded: ticks,
tempi and time-signature components are natural numbers (all are
non-negative in the source's data), microsecond values and the
`tick_end_abs` / `usec_end_abs` fields are integers because the source
uses the sentinels `-1` ("not ended") and `-2` ("ended"), and Python's
floor division `//` on possibly-negative integers is `Int.fdiv`.
Floating-point quantities (the balloon frequency estimator) are
modelled over the reals; `round` is mathematical rounding, which agrees
with the source except possibly at exact half-integers.
-/

/-- MIDI messages consumed by the converter, as filtered by `main`:
time-signature and tempo meta messages plus note-on / note-off. -/
inductive MidiMsg where
  | timeSignature (numerator denominator : Nat)
  | setTempo (tempo : Nat)
  | noteOn (channel note velocity : Nat)
  | noteOff (channel note : Nat)
deriving DecidableEq

/-- Channel of a note message (`msg.channel`); 0 for non-note messages,
which the source never queries. -/
def MidiMsg.channel : MidiMsg → Nat
  | .noteOn c _ _ => c
  | .noteOff c _ => c
  | _ => 0

/-- Pitch of a note message (`msg.note`); 0 for non-note messages,
which the source never queries. -/
def MidiMsg.note : MidiMsg → Nat
  | .noteOn _ n _ => n
  | .noteOff _ n => n
  | _ => 0

/-- The `ChartEvent` dataclass: a message with an absolute tick and the
derived span / time-resolution fields, default `-1` ("unset"). -/
structure ChartEvent where
  msg : MidiMsg
  tick_abs : Nat
  tick_end_abs : Int := -1
  usec_abs : Int := -1
  usec_end_abs : Int := -1
deriving DecidableEq

/-- Default event used for out-of-range arena lookups; unreachable in
states produced by the embedded operations (the source would raise). -/
def dfltEvent : ChartEvent := { msg := .setTempo 0, tick_abs := 0 }

/-- `KNOWN_NOTES`: the supported TJA symbol alphabet. -/
def KNOWN_NOTES : List Char :=
  ['0', '1', '2', '3', '4', '5', '6', '7', '9', 'A', 'B', 'C', 'D', 'F', 'G', 'H', 'I']

/-- `LONG_NOTES`: symbols denoting sustained notes. -/
def LONG_NOTES : List Char := ['5', '6', '7', '9', 'D', 'H', 'I']

/-- `BALLOON_NOTES`: symbols denoting balloon notes. -/
def BALLOON_NOTES : List Char := ['7', '9', 'D']

/-- `is_known_note`. -/
def is_known_note (sym : Char) : Bool := KNOWN_NOTES.contains sym

/-- `is_long_note`. -/
def is_long_note (sym : Char) : Bool := LONG_NOTES.contains sym

/-- `is_balloon_note`. -/
def is_balloon_note (sym : Char) : Bool := BALLOON_NOTES.contains sym

/-- The `ChartState` class: timing model state plus the balloon list
(`None` until the first balloon record is created). -/
structure ChartState where
  ticks_per_beat : Nat
  tsign_upper : Nat
  tsign_lower : Nat
  usec_per_beat : Nat
  i_measure_begin : Nat
  tick_measure_begin : Nat
  tick_checkpoint : Nat
  usec_checkpoint : Int
  balloons : Option (List ChartEvent)
deriving DecidableEq

/-- `ChartState.__init__`: defaults 4/4 and 120 BPM
(`bpm2tempo(120) = 500000` microseconds per beat). -/
def mkChartState (ticks_per_beat : Nat) : ChartState :=
  { ticks_per_beat := ticks_per_beat
    tsign_upper := 4
    tsign_lower := 4
    usec_per_beat := 500000
    i_measure_begin := 0
    tick_measure_begin := 0
    tick_checkpoint := 0
    usec_checkpoint := 0
    balloons := none }

/-- `get_ticks_per_measure`: `max(1, ticks_per_beat * 4 * tsign_upper //
tsign_lower)`.  All operands are non-negative, so Python's floor
division is `Nat` division. -/
def ChartState.get_ticks_per_measure (s : ChartState) : Nat :=
  max 1 (s.ticks_per_beat * 4 * s.tsign_upper / s.tsign_lower)

/-- `get_tick_measure_end`. -/
def ChartState.get_tick_measure_end (s : ChartState) : Nat :=
  s.tick_measure_begin + s.get_ticks_per_measure

/-- `get_usec_at`: `usec_checkpoint + (tick - tick_checkpoint) *
usec_per_beat // ticks_per_beat`, with Python's floor division on a
possibly negative numerator rendered as `Int.fdiv`. -/
def ChartState.get_usec_at (s : ChartState) (tick : Nat) : Int :=
  s.usec_checkpoint +
    Int.fdiv (((tick : Int) - s.tick_checkpoint) * s.usec_per_beat) s.ticks_per_beat

/-- `advance_usec`: re-anchor the tick-to-microsecond conversion. -/
def ChartState.advance_usec (s : ChartState) (tick : Nat) : ChartState :=
  { s with usec_checkpoint := s.get_usec_at tick, tick_checkpoint := tick }

/-- `advance_measure`. -/
def ChartState.advance_measure (s : ChartState) : ChartState :=
  { s with tick_measure_begin := s.get_tick_measure_end }

/-- Applying a list of tempo changes `(tick, tempo)` the way
`scan_measure` does (lines 151-153): `advance_usec(tick)` first, then
overwrite `usec_per_beat`. -/
def applyTempoChain (s : ChartState) : List (Nat × Nat) → ChartState
  | [] => s
  | (t, tempo) :: rest =>
      applyTempoChain { s.advance_usec t with usec_per_beat := tempo } rest

/-- Modelled from the spec: the drift-free reference value of `usecAt`
after a chain of tempo changes, as a sum of per-segment floored
contributions re-anchored at every change. -/
def chainUsecSpec (ticks_per_beat : Nat) (usec0 : Int) (cp0 : Nat) (tempo0 : Nat) :
    List (Nat × Nat) → Nat → Int
  | [], t => usec0 + Int.fdiv (((t : Int) - cp0) * tempo0) ticks_per_beat
  | (t1, tempo1) :: rest, t =>
      chainUsecSpec ticks_per_beat
        (usec0 + Int.fdiv (((t1 : Int) - cp0) * tempo0) ticks_per_beat) t1 tempo1 rest t

/-- One item of the text emitted through the `emit` closure of
`scan_measure`.  Cell runs are kept as character lists; the textual
rendering of directive lines (which involves Python float `repr` for
BPM values) is out of scope, so directives carry their raw fields. -/
inductive Emitted where
  | cells (s : List Char)
  | blank
  | measureDirective (numerator denominator : Nat)
  | bpmDirective (tempo : Nat)
  | comma
deriving DecidableEq

/-- A cell run as emitted by `scan_measure`:
`note_symbol_last + n * '0'`. -/
def mkCells (c : Char) (n : Nat) : List Char := c :: List.replicate n '0'

/-- Emit an item only when a real output file is attached
(`tja is not None`); the silent pass appends nothing. -/
def emitItem (write : Bool) (i : Emitted) : List Emitted :=
  if write then [i] else []

/-- Number of balloon-close symbols `'8'` among the emitted cell runs. -/
def emittedCount8 : List Emitted → Nat
  | [] => 0
  | .cells s :: rest => s.count '8' + emittedCount8 rest
  | _ :: rest => emittedCount8 rest

/-- Consecutive-duplicate removal, inner loop: drop elements equal to
the last kept value (`scan_measure` lines 116-121). -/
def dedupeGo (last : Nat) : List Nat → List Nat
  | [] => []
  | y :: ys => if y ≠ last then y :: dedupeGo y ys else dedupeGo last ys

/-- Consecutive-duplicate removal over the relative-offset list. -/
def dedupeConsecutive : List Nat → List Nat
  | [] => []
  | x :: xs => x :: dedupeGo x xs

/-- Fold of `math.gcd` over a list (`gcd(*tick_rels)`). -/
def gcdList (l : List Nat) : Nat := l.foldr Nat.gcd 0

/-- The relative-offset list of a measure: offsets of events strictly
after the measure begin, then the measure length as sentinel. -/
def measureTickRels (tick_beg tick_end : Nat) (evs : List ChartEvent) : List Nat :=
  (evs.filterMap fun e =>
    if tick_beg < e.tick_abs then some (e.tick_abs - tick_beg) else none)
    ++ [tick_end - tick_beg]

/-- `tick_gcd`: gcd of the deduplicated relative offsets. -/
def measureGcd (tick_beg tick_end : Nat) (evs : List ChartEvent) : Nat :=
  gcdList (dedupeConsecutive (measureTickRels tick_beg tick_end evs))

/-- Loop state of `scan_measure`'s event loop: the mutated `ChartState`
plus the `is_line_start` / `idiv_last` / `note_symbol_last` locals and
the output emitted so far. -/
structure MeasureAcc where
  state : ChartState
  out : List Emitted
  is_line_start : Bool
  idiv_last : Int
  note_symbol_last : Char

/-- `ensure_line_start`. -/
def ensureLineStart (write : Bool) (acc : MeasureAcc) : MeasureAcc :=
  if acc.is_line_start then acc
  else { acc with out := acc.out ++ emitItem write .blank, is_line_start := true }

/-- Whether the last balloon record is unterminated
(`self.balloons is not None and self.balloons[-1].usec_end_abs < 0`). -/
def balloonOpenB : Option (List ChartEvent) → Bool
  | none => false
  | some bs => decide ((bs.getLastD dfltEvent).usec_end_abs < 0)

/-- In-place update of the last element of the balloon list
(`self.balloons[-1].usec_end_abs = ...`); the empty case is unreachable
in the source (the guarding condition would already have raised). -/
def updateLast (f : ChartEvent → ChartEvent) (l : List ChartEvent) : List ChartEvent :=
  match l with
  | [] => []
  | _ => l.dropLast ++ [f (l.getLastD dfltEvent)]

/-- Cell-run flush at the head of `scan_measure`'s event loop (lines
138-144): when the event starts a later cell, emit the pending symbol
padded with silence. -/
def flushCellRun (write : Bool) (tick_beg tick_gcd : Nat) (acc : MeasureAcc)
    (e : ChartEvent) : MeasureAcc :=
  let idiv : Int := Int.fdiv ((e.tick_abs : Int) - tick_beg) tick_gcd
  if acc.idiv_last < idiv then
    { acc with
      out := acc.out ++ emitItem write (.cells (mkCells acc.note_symbol_last (idiv - acc.idiv_last - 1).toNat))
      is_line_start := false
      note_symbol_last := '0'
      idiv_last := idiv }
  else acc

/-- Message dispatch of `scan_measure`'s event loop (lines 146-169). -/
def dispatchEvent (sym : Char) (write : Bool) (acc : MeasureAcc) (e : ChartEvent) :
    MeasureAcc :=
  match e.msg with
  | .timeSignature n d =>
      let acc := { acc with state := { acc.state with tsign_upper := n, tsign_lower := d } }
      let acc := ensureLineStart write acc
      { acc with out := acc.out ++ emitItem write (.measureDirective n d) }
  | .setTempo tempo =>
      let acc := { acc with state := { acc.state.advance_usec e.tick_abs with usec_per_beat := tempo } }
      let acc := ensureLineStart write acc
      { acc with out := acc.out ++ emitItem write (.bpmDirective tempo) }
  | .noteOn _ _ _ =>
      if ¬ is_long_note sym then
        { acc with note_symbol_last := sym }
      else if ¬ balloonOpenB acc.state.balloons then
        { acc with
          note_symbol_last := sym
          state := { acc.state with
            balloons := some ((acc.state.balloons.getD []) ++
              [{ e with usec_abs := acc.state.get_usec_at e.tick_abs, usec_end_abs := -1 }]) } }
      else acc
  | .noteOff _ _ =>
      if is_long_note sym ∧ balloonOpenB acc.state.balloons then
        { acc with
          note_symbol_last := '8'
          state := { acc.state with
            balloons := some (updateLast
              (fun b => { b with usec_end_abs := acc.state.get_usec_at e.tick_abs })
              (acc.state.balloons.getD [])) } }
      else acc

/-- Body of `scan_measure`'s event loop for one event: flush the
pending cell run when the event starts a later cell, then dispatch on
the message kind (lines 136-169 of the source). -/
def scanMeasureStep (sym : Char) (write : Bool) (tick_beg tick_gcd : Nat)
    (acc : MeasureAcc) (e : ChartEvent) : MeasureAcc :=
  dispatchEvent sym write (flushCellRun write tick_beg tick_gcd acc e) e

/-- `scan_measure` on the slice of events belonging to the pending
measure.  `write = false` is the silent pass (`tja is None`), whose
`emit` is a no-op. -/
def scanMeasure (sym : Char) (write : Bool) (s : ChartState) (evs : List ChartEvent) :
    ChartState × List Emitted :=
  let tick_beg := s.tick_measure_begin
  let tick_end := s.get_tick_measure_end
  let g := measureGcd tick_beg tick_end evs
  let acc := evs.foldl (scanMeasureStep sym write tick_beg g)
    { state := s, out := [], is_line_start := true, idiv_last := 0, note_symbol_last := '0' }
  let idiv : Int := ((tick_end - tick_beg) / g : Nat)
  let out1 :=
    if evs ≠ [] ∧ acc.idiv_last < idiv then
      acc.out ++ emitItem write (.cells (mkCells acc.note_symbol_last (idiv - acc.idiv_last - 1).toNat))
    else acc.out
  (acc.state, out1 ++ emitItem write .comma)

/-- Result of a full chart scan: the final state, the emitted items,
and the `(tick_measure_begin, tick_measure_end)` span recorded at
entry of each `scan_measure` call. -/
structure ScanResult where
  state : ChartState
  out : List Emitted
  trace : List (Nat × Nat)
deriving DecidableEq

/-- The inner measure-flushing loop of `scan_chart`
(`while get_tick_measure_end() <= e.tick_abs`), with explicit fuel.
Each iteration increases `tick_measure_begin` by at least 1, so any
fuel of at least `tick + 1 - tick_measure_begin` reaches the loop's
exit condition. -/
def flushMeasures (sym : Char) (write : Bool) (tick : Nat) :
    Nat → ChartState → List ChartEvent → List Emitted → List (Nat × Nat) →
    ChartState × List ChartEvent × List Emitted × List (Nat × Nat)
  | 0, s, pending, out, trace => (s, pending, out, trace)
  | fuel + 1, s, pending, out, trace =>
      if s.get_tick_measure_end ≤ tick then
        let r := scanMeasure sym write s pending
        flushMeasures sym write tick fuel r.1.advance_measure [] (out ++ r.2)
          (trace ++ [(s.tick_measure_begin, s.get_tick_measure_end)])
      else (s, pending, out, trace)

/-- `scan_chart`'s event loop: flush complete measures before the
event, then apply a measure-initial time-signature change, then queue
the event for the measure it belongs to; the final pending slice is
flushed after the loop. -/
def scanChartGo (sym : Char) (write : Bool) (s : ChartState) (pending : List ChartEvent)
    (out : List Emitted) (trace : List (Nat × Nat)) : List ChartEvent → ScanResult
  | [] =>
      let r := scanMeasure sym write s pending
      { state := r.1, out := out ++ r.2
        trace := trace ++ [(s.tick_measure_begin, s.get_tick_measure_end)] }
  | e :: rest =>
      let f := flushMeasures sym write e.tick_abs (e.tick_abs + 1) s pending out trace
      let s1 := f.1
      let s2 :=
        if e.tick_abs = s1.tick_measure_begin then
          match e.msg with
          | .timeSignature n d => { s1 with tsign_upper := n, tsign_lower := d }
          | _ => s1
        else s1
      scanChartGo sym write s2 (f.2.1 ++ [e]) f.2.2.1 f.2.2.2 rest

/-- `scan_chart`. -/
def scanChart (sym : Char) (write : Bool) (s : ChartState) (events : List ChartEvent) :
    ScanResult :=
  scanChartGo sym write s [] [] [] events

/-- Length of the balloon list of a state (empty when `None`). -/
def balloonsLength (s : ChartState) : Nat := (s.balloons.getD []).length

/-- Association-list lookup modelling Python dict access (insertion
order preserved). -/
def alookup {α β : Type} [DecidableEq α] : List (α × β) → α → Option β
  | [], _ => none
  | (k', v) :: rest, k => if k' = k then some v else alookup rest k

/-- Association-list store: update an existing key in place or append a
new binding (Python dict semantics). -/
def aset {α β : Type} [DecidableEq α] : List (α × β) → α → β → List (α × β)
  | [], k, v => [(k, v)]
  | (k', v') :: rest, k, v =>
      if k' = k then (k, v) :: rest else (k', v') :: aset rest k v

/-- Append an id to a lane list, creating the lane when absent
(`note_events.setdefault((ch, polypos), []).append(event)`). -/
def laneAppend {α : Type} [DecidableEq α] (l : List (α × List Nat)) (k : α) (id : Nat) :
    List (α × List Nat) :=
  aset l k ((alookup l k).getD [] ++ [id])

/-- State of the polyphonic lane assignor (`note_on` / `note_off`
closures in `main`).  Python mutates shared `ChartEvent` objects that
live both in `on_notes` slot lists and in `note_events` lanes; the
embedding makes the aliasing explicit through an arena `store` indexed
by ids, with `on_notes` and `note_events` holding ids. -/
structure LaneState where
  store : List ChartEvent
  on_notes : List (Nat × List Nat)
  note_events : List ((Nat × Nat) × List Nat)
deriving DecidableEq

/-- The empty lane-assignor state. -/
def initLaneState : LaneState := { store := [], on_notes := [], note_events := [] }

/-- The provisional same-pitch cut of `note_on` (lines 252-258),
computed on a copy of the occupant: an occupant of the same pitch that
is still open is first closed at the new start, then its end is clamped
to `max(start + gap, min(end, newStart - gap))`. -/
def cutView (g note tick : Nat) (e : ChartEvent) : ChartEvent :=
  if e.msg.note = note then
    let e1 :=
      if e.usec_end_abs = -1 then { e with tick_end_abs := (tick : Int), usec_end_abs := -2 }
      else e
    { e1 with tick_end_abs := max ((e.tick_abs : Int) + g) (min e1.tick_end_abs ((tick : Int) - g)) }
  else e

/-- The free-slot test of `note_on` (line 260):
`e_.usec_end_abs != -1 and tick > e_.tick_end_abs`. -/
def isFree (tick : Nat) (e : ChartEvent) : Bool :=
  e.usec_end_abs ≠ -1 ∧ e.tick_end_abs < (tick : Int)

/-- Scan the channel's slots in index order for the first free slot,
returning its index, the occupant id, and the occupant's cut view. -/
def findFree (store : List ChartEvent) (g note tick : Nat) :
    List Nat → Option (Nat × Nat × ChartEvent)
  | [] => none
  | id :: rest =>
      let e' := cutView g note tick (store.getD id dfltEvent)
      if isFree tick e' then some (0, id, e')
      else (findFree store g note tick rest).map fun r => (r.1 + 1, r.2)

/-- The reversed open-slot search of `note_off` (lines 277-282): the
most recently indexed open slot of matching pitch. -/
def findOpenRev (store : List ChartEvent) (note : Nat) : List Nat → Option Nat
  | [] => none
  | id :: rest =>
      match findOpenRev store note rest with
      | some j => some j
      | none =>
          let e := store.getD id dfltEvent
          if e.usec_end_abs = -1 ∧ e.msg.note = note then some id else none

/-- The `note_on` closure: create the new note with minimum length
`tick + g`, reuse the first free slot (persisting that occupant's cut),
otherwise append a new slot in sustain mode; record the event in lane
`(channel, polypos)` when sustained or when `polypos = 0`. -/
def laneNoteOn (long : Bool) (g : Nat) (st : LaneState) (ch note velocity tick : Nat) :
    LaneState :=
  let slots := (alookup st.on_notes ch).getD []
  let newId := st.store.length
  let newRec : ChartEvent :=
    { msg := .noteOn ch note velocity, tick_abs := tick
      tick_end_abs := (tick : Int) + g, usec_abs := -1, usec_end_abs := -1 }
  match findFree st.store g note tick slots with
  | some (i, id, e') =>
      let store1 := st.store.set id
        { st.store.getD id dfltEvent with
          tick_end_abs := e'.tick_end_abs, usec_end_abs := e'.usec_end_abs }
      { store := store1 ++ [newRec]
        on_notes := aset st.on_notes ch (slots.set i newId)
        note_events :=
          if long ∨ i = 0 then laneAppend st.note_events (ch, i) newId
          else st.note_events }
  | none =>
      { store := st.store ++ [newRec]
        on_notes := aset st.on_notes ch (if long then slots ++ [newId] else slots)
        note_events :=
          if long ∨ slots.length = 0 then laneAppend st.note_events (ch, slots.length) newId
          else st.note_events }

/-- The `note_off` closure: close the most recently indexed open slot
of matching pitch at `max(start + gap, tick)`. -/
def laneNoteOff (g : Nat) (st : LaneState) (ch note tick : Nat) : LaneState :=
  match alookup st.on_notes ch with
  | none => st
  | some slots =>
      match findOpenRev st.store note slots with
      | none => st
      | some id =>
          let e := st.store.getD id dfltEvent
          let e2 : ChartEvent :=
            { e with tick_end_abs := max ((e.tick_abs : Int) + g) (tick : Int),
                     usec_end_abs := -2 }
          { st with store := st.store.set id e2 }

/-- The raw-note-event dispatch loop of `main` (lines 284-293). -/
def processRaw (long : Bool) (g : Nat) (st : LaneState) : List ChartEvent → LaneState
  | [] => st
  | e :: rest =>
      let st' :=
        match e.msg with
        | .noteOn ch note v =>
            if 0 < v then
              let st1 := laneNoteOn long g st ch note v e.tick_abs
              if ¬ long then laneNoteOff g st1 ch note e.tick_abs else st1
            else if long then laneNoteOff g st ch note e.tick_abs else st
        | .noteOff ch note => if long then laneNoteOff g st ch note e.tick_abs else st
        | _ => st
      processRaw long g st' rest

/-- Regeneration of one note's events (lines 299-305): a note whose
clamped end is not after its start is discarded; a surviving note
yields itself followed by a synthesized `note_off` at the clamped
end tick. -/
def regenBlock (e : ChartEvent) : List ChartEvent :=
  if (e.tick_abs : Int) < e.tick_end_abs then
    [e, { msg := .noteOff e.msg.channel e.msg.note, tick_abs := e.tick_end_abs.toNat }]
  else []

/-- Regeneration of a whole lane's note-on / note-off event list. -/
def regenerateLane (store : List ChartEvent) (ids : List Nat) : List ChartEvent :=
  ids.flatMap fun id => regenBlock (store.getD id dfltEvent)

/-- `note_to_hz`: twelve-tone equal temperament with pitch 69 at
440 Hz, modelled over the reals. -/
noncomputable def noteToHz (note : ℝ) : ℝ := 440 * (2 : ℝ) ^ ((note - 69) / 12)

/-- The balloon hit-count list computed in `main` (lines 341-343). -/
noncomputable def balloonCounts (balloons : List ChartEvent) : List ℤ :=
  balloons.map fun e =>
    max 1 (round (noteToHz e.msg.note * (((e.usec_end_abs - e.usec_abs : ℤ) : ℝ) / 1000000)))

/-- The sink-independent part of the measure-scan loop state: the
`ChartState` and the three scalar locals, without the emitted output. -/
def MeasureAcc.core (a : MeasureAcc) : ChartState × Bool × Int × Char :=
  (a.state, a.is_line_start, a.idiv_last, a.note_symbol_last)

/-- Invariant of the balloon list: when present it is non-empty and
every record except the last one is terminated. -/
def balloonsOk : Option (List ChartEvent) → Prop
  | none => True
  | some bs => bs ≠ [] ∧ ∀ e ∈ bs.dropLast, 0 ≤ e.usec_end_abs

/-- Timeline with a 3/4 signature change strictly inside the first
measure (ticks per measure 8 at resolution 2) and a later note. -/
def evsSigMid : List ChartEvent :=
  [{ msg := .timeSignature 3 4, tick_abs := 5 }, { msg := .noteOn 0 60 64, tick_abs := 20 }]

/-- Timeline with a 3/4 signature change at exactly tick 0 and a later
note. -/
def evsSigZero : List ChartEvent :=
  [{ msg := .timeSignature 3 4, tick_abs := 0 }, { msg := .noteOn 0 60 64, tick_abs := 20 }]

/-- Timeline consisting of a single balloon-opening note-on with no
matching note-off. -/
def evsOpenOnly : List ChartEvent := [{ msg := .noteOn 0 60 64, tick_abs := 0 }]

/-- Timeline with a lengthening 6/4 signature change strictly inside
the first measure (ticks per measure 8 at resolution 2, 12 after the
change) and notes at ticks 9 and 20: after the first flush the cursor
jumps from 0 to 12, so the tick-9 note is flushed inside the measure
spanning `[12, 24)`, before that measure's begin. -/
def evsSigLengthen : List ChartEvent :=
  [{ msg := .timeSignature 6 4, tick_abs := 5 },
   { msg := .noteOn 0 60 64, tick_abs := 9 },
   { msg := .noteOn 0 62 64, tick_abs := 20 }]

/-- Timeline with one note-on at tick 0 (pitch 69) and its note-off at
tick 240. -/
def evsBalloonPair : List ChartEvent :=
  [{ msg := .noteOn 0 69 64, tick_abs := 0 }, { msg := .noteOff 0 69, tick_abs := 240 }]

/-- Raw note events: a note on pitch 60 spanning ticks 0-100, then a
note-on of pitch 61 at tick 101, one tick after the first note ends. -/
def rawsGapDemo : List ChartEvent :=
  [{ msg := .noteOn 0 60 64, tick_abs := 0 },
   { msg := .noteOff 0 60, tick_abs := 100 },
   { msg := .noteOn 0 61 64, tick_abs := 101 }]

/-- The free-slot predicate of `note_on` on the occupant of one slot
id: the cut view is marked ended and its end tick lies strictly before
the new note's start. -/
def noteFree (store : List ChartEvent) (g note tick : Nat) (id : Nat) : Bool :=
  isFree tick (cutView g note tick (store.getD id dfltEvent))

/-- Invariant of the lane-assignor state in sustain mode: every stored
note keeps the minimum length `g` (and a still-open note keeps exactly
the minimum length), and every slot id is a valid arena index. -/
def StoreInvariant (g : Nat) (st : LaneState) : Prop :=
  (∀ rec ∈ st.store,
    (rec.tick_abs : Int) + g ≤ rec.tick_end_abs ∧
    (rec.usec_end_abs = -1 → rec.tick_end_abs = (rec.tick_abs : Int) + g)) ∧
  (∀ p ∈ st.on_notes, ∀ id ∈ p.2, id < st.store.length)

theorem gcdList_dvd_mem : ∀ {l : List Nat} {a : Nat}, a ∈ l → gcdList l ∣ a := by
  intro l
  induction l with
  | nil => intro a ha; cases ha
  | cons x xs ih =>
      intro a ha
      rcases List.mem_cons.mp ha with h | h
      · subst h; exact Nat.gcd_dvd_left _ _
      · exact dvd_trans (Nat.gcd_dvd_right _ _) (ih h)

theorem gcdList_dedupeGo : ∀ (ys : List Nat) (last : Nat),
    Nat.gcd last (gcdList (dedupeGo last ys)) = Nat.gcd last (gcdList ys) := by
  intro ys
  induction ys with
  | nil => intro last; rfl
  | cons y ys ih =>
      intro last
      by_cases hy : y = last
      · subst hy
        simp only [dedupeGo, ne_eq, not_true_eq_false, if_false, ih]
        show Nat.gcd y (gcdList ys) = Nat.gcd y (gcdList (y :: ys))
        show Nat.gcd y (gcdList ys) = Nat.gcd y (Nat.gcd y (gcdList ys))
        rw [← Nat.gcd_assoc, Nat.gcd_self]
      · simp only [dedupeGo, ne_eq, hy, not_false_eq_true, if_true]
        show Nat.gcd last (Nat.gcd y (gcdList (dedupeGo y ys))) =
          Nat.gcd last (Nat.gcd y (gcdList ys))
        rw [ih y]

theorem gcdList_dedupeConsecutive (l : List Nat) :
    gcdList (dedupeConsecutive l) = gcdList l := by
  cases l with
  | nil => rfl
  | cons x xs =>
      show Nat.gcd x (gcdList (dedupeGo x xs)) = Nat.gcd x (gcdList xs)
      exact gcdList_dedupeGo xs x

theorem dedupeConsecutive_ne_nil {l : List Nat} (h : l ≠ []) :
    dedupeConsecutive l ≠ [] := by
  cases l with
  | nil => exact absurd rfl h
  | cons x xs => simp [dedupeConsecutive]

theorem sentinel_mem_measureTickRels (tick_beg tick_end : Nat) (evs : List ChartEvent) :
    tick_end - tick_beg ∈ measureTickRels tick_beg tick_end evs := by
  unfold measureTickRels
  exact List.mem_append_right _ (List.mem_singleton.mpr rfl)

theorem measureGcd_dvd_rel (tick_beg tick_end : Nat) (evs : List ChartEvent)
    {r : Nat} (hr : r ∈ measureTickRels tick_beg tick_end evs) :
    measureGcd tick_beg tick_end evs ∣ r := by
  unfold measureGcd
  rw [gcdList_dedupeConsecutive]
  exact gcdList_dvd_mem hr

/-- Claim C2 counterexample: the exact-division conjunct of the claim
fails on a reachable flushed measure.  At resolution 2, a 6/4 signature
change at tick 5 lengthens the measure from 8 to 12 ticks; the first
flush covers `(0, 8)` and the cursor then advances to 12, so the final
flush covers `(12, 24)` with the pending events at ticks 9 and 20
(everything after the first flushed range).  That measure's
quantization unit is 4, but the tick-9 event lies before the measure's
begin: its relative offset is `9 - 12 = -3`, which is not a multiple of
4, and its Python floor-division cell index `-1` does not reconstruct
the offset (`-1 * 4 ≠ -3`) — visible in the emitted second measure,
where the tick-9 note's symbol lands in cell 0. -/
theorem c2_counterexample :
    (scanChart '7' true (mkChartState 2) evsSigLengthen).trace = [(0, 8), (12, 24)] ∧
    (scanChart '7' true (mkChartState 2) evsSigLengthen).out =
      [Emitted.cells ['0', '0', '0', '0', '0'], Emitted.blank,
       Emitted.measureDirective 6 4, Emitted.cells ['0', '0', '0'], Emitted.comma,
       Emitted.cells ['7', '0'], Emitted.cells ['0'], Emitted.comma] ∧
    measureGcd 12 24 (evsSigLengthen.drop 1) = 4 ∧
    (evsSigLengthen.drop 1).getD 0 dfltEvent =
      { msg := .noteOn 0 60 64, tick_abs := 9 } ∧
    ¬ ((4 : Int) ∣ ((9 : Int) - 12)) ∧
    Int.fdiv ((9 : Int) - 12) 4 * 4 ≠ (9 : Int) - 12 := by
  decide

/-- Claim C2 as amended: for every measure flushed by `scan_measure`,
the quantization unit is the gcd of the deduplicated positive relative
offsets together with the measure-length sentinel; this list is never
empty (and its gcd is positive), the unit divides the measure length
exactly, and `cellCount * unit` reconstructs the measure length with no
residue.  The exact-division property for event cell indices holds for
the events lying at or after the measure's begin — stated here as the
hypothesis on the flushed range; a flushed range can reachably contain
an event before the measure's begin (after a mid-measure signature
change lengthens the measure), and such an event's offset is negative
and in general not an exact multiple of the unit. -/
theorem c2_quantization_unit (s : ChartState) (evs : List ChartEvent)
    (h : ∀ e ∈ evs, s.tick_measure_begin ≤ e.tick_abs) :
    dedupeConsecutive
      (measureTickRels s.tick_measure_begin s.get_tick_measure_end evs) ≠ [] ∧
    0 < measureGcd s.tick_measure_begin s.get_tick_measure_end evs ∧
    measureGcd s.tick_measure_begin s.get_tick_measure_end evs ∣ s.get_ticks_per_measure ∧
    s.get_ticks_per_measure / measureGcd s.tick_measure_begin s.get_tick_measure_end evs *
      measureGcd s.tick_measure_begin s.get_tick_measure_end evs = s.get_ticks_per_measure ∧
    ∀ e ∈ evs,
      measureGcd s.tick_measure_begin s.get_tick_measure_end evs ∣
        (e.tick_abs - s.tick_measure_begin) := by
  have hsent : s.get_tick_measure_end - s.tick_measure_begin = s.get_ticks_per_measure := by
    unfold ChartState.get_tick_measure_end
    omega
  have hdvd : measureGcd s.tick_measure_begin s.get_tick_measure_end evs ∣
      s.get_ticks_per_measure := by
    have := measureGcd_dvd_rel s.tick_measure_begin s.get_tick_measure_end evs
      (sentinel_mem_measureTickRels s.tick_measure_begin s.get_tick_measure_end evs)
    rwa [hsent] at this
  have htpm : 0 < s.get_ticks_per_measure := le_max_left 1 _
  have hpos : 0 < measureGcd s.tick_measure_begin s.get_tick_measure_end evs := by
    rcases Nat.eq_zero_or_pos (measureGcd s.tick_measure_begin s.get_tick_measure_end evs)
      with h0 | h0
    · rw [h0] at hdvd
      exact absurd (Nat.eq_zero_of_zero_dvd hdvd) (Nat.pos_iff_ne_zero.mp htpm)
    · exact h0
  refine ⟨?_, hpos, hdvd, Nat.div_mul_cancel hdvd, ?_⟩
  · apply dedupeConsecutive_ne_nil
    unfold measureTickRels
    simp
  · intro e he
    rcases lt_or_eq_of_le (h e he) with hlt | heq
    · apply measureGcd_dvd_rel
      unfold measureTickRels
      apply List.mem_append_left
      apply List.mem_filterMap.mpr
      exact ⟨e, he, by simp [hlt]⟩
    · rw [← heq, Nat.sub_self]
      exact dvd_zero _

/-- Witness for C2 at a concrete measure. -/
theorem c2_quantization_unit_witness :
    (∀ e ∈ evsBalloonPair, (mkChartState 480).tick_measure_begin ≤ e.tick_abs) ∧
    0 < measureGcd (mkChartState 480).tick_measure_begin
      (mkChartState 480).get_tick_measure_end evsBalloonPair :=
  ⟨by decide, (c2_quantization_unit (mkChartState 480) evsBalloonPair (by decide)).2.1⟩

/-- Claim C4: `usecAt` after a chain of `advance_usec` re-anchorings at
tempo-change ticks equals the direct formula using only the final
anchor (first conjunct), and that value is exactly the drift-free sum
of per-segment floored contributions (second conjunct): no integer
error accumulates, however many tempo changes occur. -/
theorem c4_usec_no_drift (s : ChartState) (chain : List (Nat × Nat)) (t : Nat) :
    (applyTempoChain s chain).get_usec_at t =
      (applyTempoChain s chain).usec_checkpoint +
        Int.fdiv (((t : Int) - (applyTempoChain s chain).tick_checkpoint) *
            (applyTempoChain s chain).usec_per_beat)
          (applyTempoChain s chain).ticks_per_beat ∧
    (applyTempoChain s chain).get_usec_at t =
      chainUsecSpec s.ticks_per_beat s.usec_checkpoint s.tick_checkpoint
        s.usec_per_beat chain t := by
  refine ⟨rfl, ?_⟩
  induction chain generalizing s with
  | nil => rfl
  | cons c rest ih =>
      obtain ⟨t1, tempo1⟩ := c
      simp only [applyTempoChain, chainUsecSpec]
      rw [ih]
      rfl

/-- Claim C5 counterexample: flushing a measure with an empty event
range emits only the `','` terminator, not the claimed `cellCount`
(here 1) silent cells followed by the terminator. -/
theorem c5_empty_measure_counterexample :
    (scanMeasure '7' true (mkChartState 480) []).2 = [Emitted.comma] ∧
    (scanMeasure '7' true (mkChartState 480) []).2 ≠
      [Emitted.cells (mkCells '0' 0), Emitted.comma] := by
  decide

/-- Claim C5 as amended: a measure flushed with an empty event range
emits exactly the bare `','` terminator with zero cells (the state is
unchanged, so the measure still advances by its full length); the
silent pass emits nothing. -/
theorem c5_empty_measure (sym : Char) (s : ChartState) :
    scanMeasure sym true s [] = (s, [Emitted.comma]) ∧
    scanMeasure sym false s [] = (s, []) := by
  constructor <;> simp [scanMeasure, emitItem]

theorem get_ticks_per_measure_pos (s : ChartState) : 1 ≤ s.get_ticks_per_measure :=
  le_max_left 1 _

theorem flushCellRun_state (w : Bool) (tb g : Nat) (acc : MeasureAcc) (e : ChartEvent) :
    (flushCellRun w tb g acc e).state = acc.state := by
  simp only [flushCellRun]
  split_ifs <;> rfl

theorem dispatchEvent_begin (sym : Char) (w : Bool) (acc : MeasureAcc) (e : ChartEvent) :
    (dispatchEvent sym w acc e).state.tick_measure_begin =
      acc.state.tick_measure_begin := by
  cases hm : e.msg <;>
    simp only [dispatchEvent, hm, ensureLineStart, ChartState.advance_usec] <;>
    split_ifs <;> rfl

theorem scanMeasureStep_begin (sym : Char) (w : Bool) (tb g : Nat) (acc : MeasureAcc)
    (e : ChartEvent) :
    (scanMeasureStep sym w tb g acc e).state.tick_measure_begin =
      acc.state.tick_measure_begin := by
  unfold scanMeasureStep
  rw [dispatchEvent_begin, flushCellRun_state]

theorem foldl_scanMeasureStep_begin (sym : Char) (w : Bool) (tb g : Nat) :
    ∀ (evs : List ChartEvent) (acc : MeasureAcc),
      (evs.foldl (scanMeasureStep sym w tb g) acc).state.tick_measure_begin =
        acc.state.tick_measure_begin := by
  intro evs
  induction evs with
  | nil => intro acc; rfl
  | cons e evs ih => intro acc; rw [List.foldl_cons, ih, scanMeasureStep_begin]

theorem scanMeasure_begin (sym : Char) (w : Bool) (s : ChartState) (evs : List ChartEvent) :
    (scanMeasure sym w s evs).1.tick_measure_begin = s.tick_measure_begin := by
  simp only [scanMeasure]
  exact foldl_scanMeasureStep_begin sym w _ _ evs _

theorem flushMeasures_fuel_sufficient (sym : Char) (w : Bool) (tick : Nat) :
    ∀ (fuel : Nat) (s : ChartState) (p : List ChartEvent) (o : List Emitted)
      (tr : List (Nat × Nat)), tick + 1 ≤ fuel + s.tick_measure_begin →
      tick < (flushMeasures sym w tick fuel s p o tr).1.get_tick_measure_end ∧
      flushMeasures sym w tick fuel s p o tr = flushMeasures sym w tick (fuel + 1) s p o tr := by
  intro fuel
  induction fuel with
  | zero =>
      intro s p o tr h
      have hgt : ¬ s.get_tick_measure_end ≤ tick := by
        unfold ChartState.get_tick_measure_end
        omega
      constructor
      · show tick < s.get_tick_measure_end
        omega
      · show (s, p, o, tr) = flushMeasures sym w tick 1 s p o tr
        simp only [flushMeasures, hgt, if_false]
  | succ fuel ih =>
      intro s p o tr h
      by_cases hg : s.get_tick_measure_end ≤ tick
      · have hb : ((scanMeasure sym w s p).1.advance_measure).tick_measure_begin =
            s.tick_measure_begin + (scanMeasure sym w s p).1.get_ticks_per_measure := by
          unfold ChartState.advance_measure ChartState.get_tick_measure_end
          rw [scanMeasure_begin]
        have htpm := get_ticks_per_measure_pos (scanMeasure sym w s p).1
        have h' : tick + 1 ≤ fuel +
            ((scanMeasure sym w s p).1.advance_measure).tick_measure_begin := by
          rw [hb]; omega
        have rec := ih ((scanMeasure sym w s p).1.advance_measure) []
          (o ++ (scanMeasure sym w s p).2)
          (tr ++ [(s.tick_measure_begin, s.get_tick_measure_end)]) h'
        constructor
        · simp only [flushMeasures, hg, if_true]
          exact rec.1
        · conv_lhs => simp only [flushMeasures, hg, if_true]
          conv_rhs => simp only [flushMeasures, hg, if_true]
          exact rec.2
      · constructor
        · simp only [flushMeasures, hg, if_false]
          omega
        · simp only [flushMeasures, hg, if_false]

/-- Claim C10: `get_ticks_per_measure` is always at least 1 (under the
claim's hypothesis `tsign_lower ≥ 1`, and indeed unconditionally in
this model), so `advance_measure` strictly increases
`tick_measure_begin` and the measure-flushing loop of `scan_chart`
reaches its exit condition within `tick + 1 - tick_measure_begin`
iterations: with that much fuel the loop's result is stable under
additional fuel and satisfies the loop exit condition, so `scan_chart`
terminates on every finite event list. -/
theorem c10_scan_terminates (s : ChartState) (h : 1 ≤ s.tsign_lower) (sym : Char)
    (w : Bool) (tick fuel : Nat) (p : List ChartEvent) (o : List Emitted)
    (tr : List (Nat × Nat)) (hfuel : tick + 1 ≤ fuel + s.tick_measure_begin) :
    1 ≤ s.get_ticks_per_measure ∧
    s.tick_measure_begin < s.advance_measure.tick_measure_begin ∧
    tick < (flushMeasures sym w tick fuel s p o tr).1.get_tick_measure_end ∧
    flushMeasures sym w tick fuel s p o tr =
      flushMeasures sym w tick (fuel + 1) s p o tr := by
  have h1 := get_ticks_per_measure_pos s
  have h2 : s.tick_measure_begin < s.advance_measure.tick_measure_begin := by
    show s.tick_measure_begin < s.get_tick_measure_end
    unfold ChartState.get_tick_measure_end
    omega
  have h3 := flushMeasures_fuel_sufficient sym w tick fuel s p o tr hfuel
  exact ⟨h1, h2, h3.1, h3.2⟩

/-- Witness for C10 at a concrete state and event tick. -/
theorem c10_scan_terminates_witness :
    1 ≤ (mkChartState 480).get_ticks_per_measure ∧
    20 < (flushMeasures '7' true 20 21 (mkChartState 480) [] [] []).1.get_tick_measure_end := by
  have h := c10_scan_terminates (mkChartState 480) (by decide) '7' true 20 21 [] [] []
    (by decide)
  exact ⟨h.1, h.2.2.1⟩

theorem dispatchEvent_core (sym : Char) (w w' : Bool) (a a' : MeasureAcc)
    (e : ChartEvent) (h : a.core = a'.core) :
    (dispatchEvent sym w a e).core = (dispatchEvent sym w' a' e).core := by
  obtain ⟨st, o, ls, il, ns⟩ := a
  obtain ⟨st', o', ls', il', ns'⟩ := a'
  simp only [MeasureAcc.core, Prod.mk.injEq] at h
  obtain ⟨h1, h2, h3, h4⟩ := h
  subst h1; subst h2; subst h3; subst h4
  cases hm : e.msg <;>
    simp only [dispatchEvent, hm, ensureLineStart, MeasureAcc.core] <;>
    split_ifs <;> rfl

theorem flushCellRun_core (w w' : Bool) (tb g : Nat) (a a' : MeasureAcc)
    (e : ChartEvent) (h : a.core = a'.core) :
    (flushCellRun w tb g a e).core = (flushCellRun w' tb g a' e).core := by
  obtain ⟨st, o, ls, il, ns⟩ := a
  obtain ⟨st', o', ls', il', ns'⟩ := a'
  simp only [MeasureAcc.core, Prod.mk.injEq] at h
  obtain ⟨h1, h2, h3, h4⟩ := h
  subst h1; subst h2; subst h3; subst h4
  simp only [flushCellRun, MeasureAcc.core]
  split_ifs <;> rfl

theorem scanMeasureStep_core (sym : Char) (w w' : Bool) (tb g : Nat)
    (a a' : MeasureAcc) (e : ChartEvent) (h : a.core = a'.core) :
    (scanMeasureStep sym w tb g a e).core = (scanMeasureStep sym w' tb g a' e).core :=
  dispatchEvent_core sym w w' _ _ e (flushCellRun_core w w' tb g a a' e h)

theorem dispatchEvent_out_false (sym : Char) (a : MeasureAcc) (e : ChartEvent) :
    (dispatchEvent sym false a e).out = a.out := by
  cases hm : e.msg <;>
    simp only [dispatchEvent, hm, ensureLineStart, emitItem, Bool.false_eq_true,
      if_false, List.append_nil] <;>
    split_ifs <;> rfl

theorem flushCellRun_out_false (tb g : Nat) (a : MeasureAcc) (e : ChartEvent) :
    (flushCellRun false tb g a e).out = a.out := by
  simp only [flushCellRun, emitItem, Bool.false_eq_true, if_false, List.append_nil]
  split_ifs <;> rfl

theorem scanMeasureStep_out_false (sym : Char) (tb g : Nat) (a : MeasureAcc)
    (e : ChartEvent) : (scanMeasureStep sym false tb g a e).out = a.out := by
  unfold scanMeasureStep
  rw [dispatchEvent_out_false, flushCellRun_out_false]

theorem foldl_scanMeasureStep_core (sym : Char) (w w' : Bool) (tb g : Nat) :
    ∀ (evs : List ChartEvent) (a a' : MeasureAcc), a.core = a'.core →
      (evs.foldl (scanMeasureStep sym w tb g) a).core =
        (evs.foldl (scanMeasureStep sym w' tb g) a').core := by
  intro evs
  induction evs with
  | nil => intro a a' h; exact h
  | cons e evs ih =>
      intro a a' h
      rw [List.foldl_cons, List.foldl_cons]
      exact ih _ _ (scanMeasureStep_core sym w w' tb g a a' e h)

theorem foldl_scanMeasureStep_out_false (sym : Char) (tb g : Nat) :
    ∀ (evs : List ChartEvent) (a : MeasureAcc),
      (evs.foldl (scanMeasureStep sym false tb g) a).out = a.out := by
  intro evs
  induction evs with
  | nil => intro a; rfl
  | cons e evs ih =>
      intro a
      rw [List.foldl_cons, ih, scanMeasureStep_out_false]

theorem scanMeasure_fst_write (sym : Char) (s : ChartState) (evs : List ChartEvent) :
    (scanMeasure sym false s evs).1 = (scanMeasure sym true s evs).1 := by
  simp only [scanMeasure]
  have h := foldl_scanMeasureStep_core sym false true s.tick_measure_begin
    (measureGcd s.tick_measure_begin s.get_tick_measure_end evs) evs
    { state := s, out := [], is_line_start := true, idiv_last := 0, note_symbol_last := '0' }
    { state := s, out := [], is_line_start := true, idiv_last := 0, note_symbol_last := '0' }
    rfl
  exact congrArg (fun p => p.1) h

theorem scanMeasure_snd_false (sym : Char) (s : ChartState) (evs : List ChartEvent) :
    (scanMeasure sym false s evs).2 = [] := by
  simp only [scanMeasure, emitItem, Bool.false_eq_true, if_false, List.append_nil,
    ite_self]
  exact foldl_scanMeasureStep_out_false sym _ _ evs _

theorem flushMeasures_write (sym : Char) (tick : Nat) :
    ∀ (fuel : Nat) (s : ChartState) (p : List ChartEvent) (o o' : List Emitted)
      (tr : List (Nat × Nat)),
      (flushMeasures sym false tick fuel s p o tr).1 =
        (flushMeasures sym true tick fuel s p o' tr).1 ∧
      (flushMeasures sym false tick fuel s p o tr).2.1 =
        (flushMeasures sym true tick fuel s p o' tr).2.1 ∧
      (flushMeasures sym false tick fuel s p o tr).2.2.2 =
        (flushMeasures sym true tick fuel s p o' tr).2.2.2 ∧
      (flushMeasures sym false tick fuel s p o tr).2.2.1 = o := by
  intro fuel
  induction fuel with
  | zero => intro s p o o' tr; exact ⟨rfl, rfl, rfl, rfl⟩
  | succ fuel ih =>
      intro s p o o' tr
      by_cases hg : s.get_tick_measure_end ≤ tick
      · simp only [flushMeasures, hg, if_true]
        rw [scanMeasure_fst_write, scanMeasure_snd_false, List.append_nil]
        exact ih _ _ _ _ _
      · simp only [flushMeasures, hg, if_false]
        simp

theorem scanChartGo_write (sym : Char) :
    ∀ (events : List ChartEvent) (s : ChartState) (p : List ChartEvent)
      (o o' : List Emitted) (tr : List (Nat × Nat)),
      (scanChartGo sym false s p o tr events).state =
        (scanChartGo sym true s p o' tr events).state ∧
      (scanChartGo sym false s p o tr events).trace =
        (scanChartGo sym true s p o' tr events).trace ∧
      (scanChartGo sym false s p o tr events).out = o := by
  intro events
  induction events with
  | nil =>
      intro s p o o' tr
      simp only [scanChartGo]
      rw [scanMeasure_fst_write, scanMeasure_snd_false, List.append_nil]
      simp
  | cons e rest ih =>
      intro s p o o' tr
      simp only [scanChartGo]
      obtain ⟨hs, hp, htr, ho⟩ := flushMeasures_write sym e.tick_abs (e.tick_abs + 1)
        s p o o' tr
      rw [hs, hp, htr, ho]
      exact ih _ _ _ _ _

/-- Claim C3 counterexample: on the merged timeline consisting of a
single balloon-opening note-on with no note-off, the silent pass
produces a balloon list of length 1 while the emission pass writes no
`'8'` balloon-close symbol at all, so the two counts disagree. -/
theorem c3_balloon_count_counterexample :
    balloonsLength (scanChart '7' false (mkChartState 480) evsOpenOnly).state = 1 ∧
    emittedCount8 (scanChart '7' true (mkChartState 480) evsOpenOnly).out = 0 ∧
    balloonsLength (scanChart '7' false (mkChartState 480) evsOpenOnly).state ≠
      emittedCount8 (scanChart '7' true (mkChartState 480) evsOpenOnly).out := by
  decide

/-- Claim C3 as amended: the silent pass and the emission pass over the
same merged timeline from clones of the same initial state are the same
deterministic function of their inputs: they produce identical final
states (hence identical balloon lists) and identical measure-boundary
traces (hence identical quantization units), and the silent pass emits
nothing.  The balloon-list length equals the number of emitted `'8'`
symbols only when every opened balloon is closed (an unterminated
balloon is counted in the list but never emits its close symbol). -/
theorem c3_two_pass_agreement (sym : Char) (s : ChartState) (evs : List ChartEvent) :
    (scanChart sym false s evs).state = (scanChart sym true s evs).state ∧
    (scanChart sym false s evs).trace = (scanChart sym true s evs).trace ∧
    (scanChart sym false s evs).out = [] :=
  scanChartGo_write sym evs s [] [] [] []

theorem updateLast_dropLast (f : ChartEvent → ChartEvent) (l : List ChartEvent) :
    (updateLast f l).dropLast = l.dropLast := by
  cases l with
  | nil => rfl
  | cons a m =>
      show ((a :: m).dropLast ++ [f ((a :: m).getLastD dfltEvent)]).dropLast = (a :: m).dropLast
      simp

theorem updateLast_ne_nil (f : ChartEvent → ChartEvent) (l : List ChartEvent)
    (h : l ≠ []) : updateLast f l ≠ [] := by
  cases l with
  | nil => exact absurd rfl h
  | cons a m =>
      show (a :: m).dropLast ++ [f ((a :: m).getLastD dfltEvent)] ≠ []
      simp

theorem mem_dropLast_or_getLastD :
    ∀ (bs : List ChartEvent) (x : ChartEvent), x ∈ bs →
      x ∈ bs.dropLast ∨ x = bs.getLastD dfltEvent := by
  intro bs
  induction bs with
  | nil => intro x hx; cases hx
  | cons a m ih =>
      intro x hx
      cases m with
      | nil =>
          right
          simp only [List.mem_singleton] at hx
          simp [hx]
      | cons b k =>
          rcases List.mem_cons.mp hx with hx' | hx'
          · left
            subst hx'
            simp
          · rcases ih x hx' with hm | hm
            · left
              simp only [List.dropLast_cons₂]
              exact List.mem_cons_of_mem a hm
            · right
              simpa using hm

theorem dispatchEvent_balloonsOk (sym : Char) (w : Bool) (acc : MeasureAcc)
    (e : ChartEvent) (h : balloonsOk acc.state.balloons) :
    balloonsOk (dispatchEvent sym w acc e).state.balloons := by
  cases hm : e.msg with
  | timeSignature n d =>
      simp only [dispatchEvent, hm, ensureLineStart]
      split_ifs <;> exact h
  | setTempo t =>
      simp only [dispatchEvent, hm, ensureLineStart]
      split_ifs <;> exact h
  | noteOn ch n v =>
      simp only [dispatchEvent, hm]
      split_ifs with h1 h2
      · exact h
      · show balloonsOk (some (acc.state.balloons.getD [] ++ [_]))
        refine ⟨by simp, ?_⟩
        intro x hx
        rw [List.dropLast_concat] at hx
        cases hb : acc.state.balloons with
        | none => rw [hb] at hx; cases hx
        | some bs =>
            rw [hb] at hx h h2
            obtain ⟨hne, hall⟩ := h
            rcases mem_dropLast_or_getLastD bs x hx with hx' | hx'
            · exact hall x hx'
            · subst hx'
              simp only [balloonOpenB, not_lt, decide_eq_true_eq] at h2
              exact h2
      · exact h
  | noteOff ch n =>
      simp only [dispatchEvent, hm]
      split_ifs with h1
      · show balloonsOk (some (updateLast _ (acc.state.balloons.getD [])))
        cases hb : acc.state.balloons with
        | none =>
            rw [hb] at h1
            simp [balloonOpenB] at h1
        | some bs =>
            rw [hb] at h
            obtain ⟨hne, hall⟩ := h
            refine ⟨updateLast_ne_nil _ _ hne, ?_⟩
            intro x hx
            rw [updateLast_dropLast] at hx
            exact hall x hx
      · exact h

theorem scanMeasureStep_balloonsOk (sym : Char) (w : Bool) (tb g : Nat)
    (acc : MeasureAcc) (e : ChartEvent) (h : balloonsOk acc.state.balloons) :
    balloonsOk (scanMeasureStep sym w tb g acc e).state.balloons := by
  unfold scanMeasureStep
  apply dispatchEvent_balloonsOk
  rw [flushCellRun_state]
  exact h

theorem foldl_scanMeasureStep_balloonsOk (sym : Char) (w : Bool) (tb g : Nat) :
    ∀ (evs : List ChartEvent) (acc : MeasureAcc), balloonsOk acc.state.balloons →
      balloonsOk ((evs.foldl (scanMeasureStep sym w tb g) acc).state.balloons) := by
  intro evs
  induction evs with
  | nil => intro acc h; exact h
  | cons e evs ih =>
      intro acc h
      rw [List.foldl_cons]
      exact ih _ (scanMeasureStep_balloonsOk sym w tb g acc e h)

theorem scanMeasure_balloonsOk (sym : Char) (w : Bool) (s : ChartState)
    (evs : List ChartEvent) (h : balloonsOk s.balloons) :
    balloonsOk (scanMeasure sym w s evs).1.balloons := by
  simp only [scanMeasure]
  exact foldl_scanMeasureStep_balloonsOk sym w _ _ evs _ h

theorem flushMeasures_balloonsOk (sym : Char) (w : Bool) (tick : Nat) :
    ∀ (fuel : Nat) (s : ChartState) (p : List ChartEvent) (o : List Emitted)
      (tr : List (Nat × Nat)), balloonsOk s.balloons →
      balloonsOk (flushMeasures sym w tick fuel s p o tr).1.balloons := by
  intro fuel
  induction fuel with
  | zero => intro s p o tr h; exact h
  | succ fuel ih =>
      intro s p o tr h
      by_cases hg : s.get_tick_measure_end ≤ tick
      · simp only [flushMeasures, hg, if_true]
        exact ih _ _ _ _ (scanMeasure_balloonsOk sym w s p h)
      · simp only [flushMeasures, hg, if_false]
        exact h

theorem scanChartGo_balloonsOk (sym : Char) (w : Bool) :
    ∀ (events : List ChartEvent) (s : ChartState) (p : List ChartEvent)
      (o : List Emitted) (tr : List (Nat × Nat)), balloonsOk s.balloons →
      balloonsOk (scanChartGo sym w s p o tr events).state.balloons := by
  intro events
  induction events with
  | nil =>
      intro s p o tr h
      simp only [scanChartGo]
      exact scanMeasure_balloonsOk sym w s p h
  | cons e rest ih =>
      intro s p o tr h
      simp only [scanChartGo]
      apply ih
      have hf := flushMeasures_balloonsOk sym w e.tick_abs (e.tick_abs + 1) s p o tr h
      by_cases ht : e.tick_abs =
          (flushMeasures sym w e.tick_abs (e.tick_abs + 1) s p o tr).1.tick_measure_begin
      · rw [if_pos ht]
        cases (e.msg) <;> exact hf
      · rw [if_neg ht]
        exact hf

/-- Claim C9: the balloon list holds at most one unterminated record at
any time during a scan, and it is always the most recently appended
one: `balloonsOk` (every record except the last is terminated) is
preserved by every scan (first conjunct, hence at every intermediate
state since scans compose the same step), a balloon-opening note-on is
ignored while a balloon is open (second conjunct), creates exactly one
appended record otherwise (third conjunct), and a balloon close updates
exactly the most recently appended record (fourth conjunct). -/
theorem c9_balloon_open_invariant :
    (∀ (sym : Char) (w : Bool) (s : ChartState) (evs : List ChartEvent),
      balloonsOk s.balloons → balloonsOk (scanChart sym w s evs).state.balloons) ∧
    (∀ (sym : Char) (w : Bool) (acc : MeasureAcc) (e : ChartEvent) (ch n v : Nat),
      e.msg = .noteOn ch n v → is_long_note sym = true →
      balloonOpenB acc.state.balloons = true →
      (dispatchEvent sym w acc e).state.balloons = acc.state.balloons) ∧
    (∀ (sym : Char) (w : Bool) (acc : MeasureAcc) (e : ChartEvent) (ch n v : Nat),
      e.msg = .noteOn ch n v → is_long_note sym = true →
      balloonOpenB acc.state.balloons = false →
      (dispatchEvent sym w acc e).state.balloons =
        some (acc.state.balloons.getD [] ++
          [{ e with usec_abs := acc.state.get_usec_at e.tick_abs, usec_end_abs := -1 }])) ∧
    (∀ (sym : Char) (w : Bool) (acc : MeasureAcc) (e : ChartEvent) (ch n : Nat),
      e.msg = .noteOff ch n → is_long_note sym = true →
      balloonOpenB acc.state.balloons = true →
      (dispatchEvent sym w acc e).state.balloons =
        some (updateLast
          (fun b => { b with usec_end_abs := acc.state.get_usec_at e.tick_abs })
          (acc.state.balloons.getD []))) := by
  refine ⟨?_, ?_, ?_, ?_⟩
  · intro sym w s evs h
    exact scanChartGo_balloonsOk sym w evs s [] [] [] h
  · intro sym w acc e ch n v hm hl hb
    simp [dispatchEvent, hm, hl, hb]
  · intro sym w acc e ch n v hm hl hb
    simp [dispatchEvent, hm, hl, hb]
  · intro sym w acc e ch n hm hl hb
    simp [dispatchEvent, hm, hl, hb]

/-- Witness for C9 at a concrete scan. -/
theorem c9_balloon_open_invariant_witness :
    balloonsOk (scanChart '7' true (mkChartState 480) evsBalloonPair).state.balloons :=
  c9_balloon_open_invariant.1 '7' true (mkChartState 480) evsBalloonPair trivial

/-- Claim C1 counterexample: at resolution 2 (ticks per measure 8, 4/4)
with a 3/4 signature change at tick 5 — strictly inside the first
measure — and a note at tick 20, the flushed measure spans are
`(0,8), (6,12), (12,18), (18,24)`: the first measure does not end early
at tick 5 (its grid spans the full old length 8), and the next measure
begins at 6 = 0 + newTicksPerMeasure, not at 5 as the claim requires. -/
theorem c1_counterexample :
    (scanChart '7' true (mkChartState 2) evsSigMid).trace =
      [(0, 8), (6, 12), (12, 18), (18, 24)] ∧
    (scanChart '7' true (mkChartState 2) evsSigMid).out =
      [Emitted.cells ['0', '0', '0', '0', '0'], Emitted.blank,
       Emitted.measureDirective 3 4, Emitted.cells ['0', '0', '0'], Emitted.comma,
       Emitted.comma, Emitted.comma, Emitted.cells ['0'], Emitted.cells ['7', '0'],
       Emitted.comma] ∧
    (mkChartState 2).tick_measure_begin < 5 ∧
    5 < (mkChartState 2).get_tick_measure_end ∧
    (scanChart '7' true (mkChartState 2) evsSigMid).trace.getD 0 (0, 0) ≠ (0, 5) ∧
    (scanChart '7' true (mkChartState 2) evsSigMid).trace.getD 1 (0, 0) ≠ (5, 11) := by
  decide

/-- Claim C1 as amended: a time-signature change strictly inside the
current measure does not end that measure early — every flushed measure
span covers the full ticks-per-measure of the state at flush entry
(first conjunct) — but the change does not take effect only from the
next measure either: after the flush, the next measure begins at
`tick_measure_begin + get_ticks_per_measure` of the post-scan state, so
a mid-measure change alters the current measure's advance (second
conjunct; adjacent spans can overlap, as in the third conjunct's
concrete run).  A signature change at exactly tick 0 does alter the
very first measure's length (fourth conjunct: first span `(0,6)`). -/
theorem c1_mid_measure_signature :
    (∀ s : ChartState,
      s.get_tick_measure_end - s.tick_measure_begin = s.get_ticks_per_measure) ∧
    (∀ (sym : Char) (w : Bool) (s : ChartState) (p : List ChartEvent),
      ((scanMeasure sym w s p).1.advance_measure).tick_measure_begin =
        s.tick_measure_begin + (scanMeasure sym w s p).1.get_ticks_per_measure) ∧
    (scanChart '7' true (mkChartState 2) evsSigMid).trace =
      [(0, 8), (6, 12), (12, 18), (18, 24)] ∧
    (scanChart '7' true (mkChartState 2) evsSigZero).trace =
      [(0, 6), (6, 12), (12, 18), (18, 24)] := by
  refine ⟨?_, ?_, by decide, by decide⟩
  · intro s
    unfold ChartState.get_tick_measure_end
    omega
  · intro sym w s p
    show (scanMeasure sym w s p).1.get_tick_measure_end = _
    unfold ChartState.get_tick_measure_end
    rw [scanMeasure_begin]

/-- Claim C8: every closed balloon record's required hit count is
`max(1, round(frequencyHz(pitch) * (usecEnd - usecStart) / 1_000_000))`
with `frequencyHz(pitch) = 440 * 2^((pitch - 69) / 12)` (first
conjunct, the hit-count list is exactly that map); in the concrete
scenario (`ticks_per_beat = 480`, note-on of pitch 69 at tick 0,
note-off at tick 240, 120 BPM) the balloon record holds
`usecStart = 0`, `usecEnd = 250000` (second conjunct), the held
duration is 250000 microseconds (third conjunct), and the reported
balloon count is 110 (fourth conjunct).  Source floats are modelled
over the reals; every operation in this scenario is exact in both. -/
theorem c8_balloon_hit_count :
    (∀ bs : List ChartEvent, balloonCounts bs = bs.map fun e =>
      max 1 (round (noteToHz e.msg.note *
        (((e.usec_end_abs - e.usec_abs : ℤ) : ℝ) / 1000000)))) ∧
    (scanChart '7' true (mkChartState 480) evsBalloonPair).state.balloons =
      some [{ msg := .noteOn 0 69 64, tick_abs := 0, tick_end_abs := -1,
              usec_abs := 0, usec_end_abs := 250000 }] ∧
    (mkChartState 480).get_usec_at 240 - (mkChartState 480).get_usec_at 0 = 250000 ∧
    balloonCounts [{ msg := .noteOn 0 69 64, tick_abs := 0, tick_end_abs := -1,
                     usec_abs := 0, usec_end_abs := 250000 }] = [110] := by
  refine ⟨fun bs => rfl, by decide, by decide, ?_⟩
  show [max 1 (round (noteToHz ((69 : Nat) : ℝ) *
    ((((250000 : ℤ) - (0 : ℤ) : ℤ) : ℝ) / 1000000)))] = [110]
  have h1 : noteToHz ((69 : Nat) : ℝ) = 440 := by
    unfold noteToHz
    have h0 : ((((69 : Nat) : ℝ)) - 69) / 12 = 0 := by norm_num
    rw [h0, Real.rpow_zero]
    norm_num
  have h2 : ((((250000 : ℤ) - (0 : ℤ) : ℤ) : ℝ) / 1000000) = 1 / 4 := by norm_num
  rw [h1, h2]
  have h3 : (440 : ℝ) * (1 / 4) = ((110 : ℤ) : ℝ) := by norm_num
  rw [h3, round_intCast]
  norm_num

theorem findFree_some_spec (store : List ChartEvent) (g note tick : Nat) :
    ∀ (slots : List Nat) (i id : Nat) (e' : ChartEvent),
      findFree store g note tick slots = some (i, id, e') →
      i < slots.length ∧ slots.getD i 0 = id ∧
      noteFree store g note tick id = true ∧
      (∀ j, j < i → noteFree store g note tick (slots.getD j 0) = false) ∧
      e' = cutView g note tick (store.getD id dfltEvent) := by
  intro slots
  induction slots with
  | nil => intro i id e' h; simp [findFree] at h
  | cons a rest ih =>
      intro i id e' h
      simp only [findFree] at h
      by_cases hf : isFree tick (cutView g note tick (store.getD a dfltEvent)) = true
      · rw [if_pos hf] at h
        rw [Option.some.injEq, Prod.mk.injEq, Prod.mk.injEq] at h
        obtain ⟨h1, h2, h3⟩ := h
        subst h1; subst h2; subst h3
        refine ⟨by simp, by simp, ?_, ?_, rfl⟩
        · exact hf
        · intro j hj; omega
      · rw [if_neg hf] at h
        cases hrec : findFree store g note tick rest with
        | none => rw [hrec] at h; simp at h
        | some r =>
            obtain ⟨i', id', e''⟩ := r
            rw [hrec] at h
            simp only [Option.map_some'] at h
            rw [Option.some.injEq, Prod.mk.injEq, Prod.mk.injEq] at h
            obtain ⟨h1, h2, h3⟩ := h
            subst h1; subst h2; subst h3
            obtain ⟨s1, s2, s3, s4, s5⟩ := ih i' id' e'' hrec
            refine ⟨?_, ?_, s3, ?_, s5⟩
            · simp only [List.length_cons]; omega
            · simpa using s2
            · intro j hj
              cases j with
              | zero =>
                  show noteFree store g note tick a = false
                  unfold noteFree
                  exact Bool.eq_false_iff.mpr hf
              | succ j' =>
                  have hj' : j' < i' := by omega
                  simpa using s4 j' hj'

theorem findFree_none_spec (store : List ChartEvent) (g note tick : Nat) :
    ∀ slots : List Nat, findFree store g note tick slots = none →
      ∀ j, j < slots.length → noteFree store g note tick (slots.getD j 0) = false := by
  intro slots
  induction slots with
  | nil => intro _ j hj; simp at hj
  | cons a rest ih =>
      intro h j hj
      simp only [findFree] at h
      by_cases hf : isFree tick (cutView g note tick (store.getD a dfltEvent)) = true
      · rw [if_pos hf] at h; cases h
      · rw [if_neg hf] at h
        cases j with
        | zero =>
            show noteFree store g note tick a = false
            unfold noteFree
            exact Bool.eq_false_iff.mpr hf
        | succ j' =>
            cases hrec : findFree store g note tick rest with
            | none =>
                have hj' : j' < rest.length := by
                  simpa using hj
                simpa using ih hrec j' hj'
            | some r => rw [hrec] at h; simp at h

/-- Claim C6 counterexample: with `minGapTicks = 10`, a note on pitch
60 occupies slot 0 of channel 0 from tick 0 and is closed at tick 100;
a new note-on (pitch 61) at tick 101 reuses slot 0 — lane `(0, 0)`
holds both notes and no lane `(0, 1)` exists — even though the occupant
ended only 1 tick before the new start, violating the claimed
requirement that the occupant must have ended at least `minGapTicks`
before the new note's start (which would force a new polyphony
position). -/
theorem c6_counterexample :
    alookup (processRaw true 10 initLaneState rawsGapDemo).note_events (0, 0) =
      some [0, 1] ∧
    alookup (processRaw true 10 initLaneState rawsGapDemo).note_events (0, 1) = none ∧
    ((processRaw true 10 initLaneState rawsGapDemo).store.getD 0 dfltEvent).tick_end_abs =
      100 ∧
    ((processRaw true 10 initLaneState rawsGapDemo).store.getD 1 dfltEvent).tick_abs =
      101 ∧
    ¬ (((processRaw true 10 initLaneState rawsGapDemo).store.getD 0
        dfltEvent).tick_end_abs + 10 ≤ (101 : Int)) := by
  decide

/-- Claim C6 as amended: in sustain mode the lane assignor scans the
channel's slots in index order and reuses the lowest-indexed slot whose
occupant — viewed through the provisional same-pitch cut — is marked
ended with its end tick strictly before the new note's start (no
minimum-gap spacing is required for reuse); the occupant's cut
`max(start + minGap, min(end-or-newStart-if-open, newStart - minGap))`
is persisted exactly for the occupant of the slot actually reused
(third conjunct: only that arena entry changes, and the reused slot and
lane `(channel, i)` receive the new note); when no slot is free a new
polyphony position is appended (fourth conjunct). -/
theorem c6_slot_reuse_rule :
    (∀ (store : List ChartEvent) (g note tick : Nat) (slots : List Nat)
      (i id : Nat) (e' : ChartEvent),
      findFree store g note tick slots = some (i, id, e') →
      i < slots.length ∧ slots.getD i 0 = id ∧
      noteFree store g note tick id = true ∧
      (∀ j, j < i → noteFree store g note tick (slots.getD j 0) = false) ∧
      e' = cutView g note tick (store.getD id dfltEvent)) ∧
    (∀ (store : List ChartEvent) (g note tick : Nat) (slots : List Nat),
      findFree store g note tick slots = none →
      ∀ j, j < slots.length → noteFree store g note tick (slots.getD j 0) = false) ∧
    (∀ (g : Nat) (st : LaneState) (ch note v tick : Nat) (i id : Nat) (e' : ChartEvent),
      findFree st.store g note tick ((alookup st.on_notes ch).getD []) = some (i, id, e') →
      (laneNoteOn true g st ch note v tick).store =
        st.store.set id { st.store.getD id dfltEvent with
          tick_end_abs := e'.tick_end_abs, usec_end_abs := e'.usec_end_abs } ++
          [{ msg := .noteOn ch note v, tick_abs := tick,
             tick_end_abs := (tick : Int) + g, usec_abs := -1, usec_end_abs := -1 }] ∧
      (laneNoteOn true g st ch note v tick).on_notes =
        aset st.on_notes ch
          (((alookup st.on_notes ch).getD []).set i st.store.length) ∧
      (laneNoteOn true g st ch note v tick).note_events =
        laneAppend st.note_events (ch, i) st.store.length) ∧
    (∀ (g : Nat) (st : LaneState) (ch note v tick : Nat),
      findFree st.store g note tick ((alookup st.on_notes ch).getD []) = none →
      (laneNoteOn true g st ch note v tick).on_notes =
        aset st.on_notes ch (((alookup st.on_notes ch).getD []) ++ [st.store.length]) ∧
      (laneNoteOn true g st ch note v tick).note_events =
        laneAppend st.note_events (ch, ((alookup st.on_notes ch).getD []).length)
          st.store.length) := by
  refine ⟨findFree_some_spec, findFree_none_spec, ?_, ?_⟩
  · intro g st ch note v tick i id e' h
    simp only [laneNoteOn, h, true_or, if_true]
    simp
  · intro g st ch note v tick h
    simp only [laneNoteOn, h, true_or, if_true]
    simp

/-- Witness for C6 at the concrete reuse scenario. -/
theorem c6_slot_reuse_rule_witness :
    (laneNoteOn true 10 (processRaw true 10 initLaneState (rawsGapDemo.take 2))
        0 61 64 101).note_events =
      laneAppend (processRaw true 10 initLaneState (rawsGapDemo.take 2)).note_events
        (0, 0) (processRaw true 10 initLaneState (rawsGapDemo.take 2)).store.length := by
  have h := c6_slot_reuse_rule.2.2.1 10
    (processRaw true 10 initLaneState (rawsGapDemo.take 2)) 0 61 64 101 0 0
    (cutView 10 61 101
      ((processRaw true 10 initLaneState (rawsGapDemo.take 2)).store.getD 0 dfltEvent))
    (by decide)
  exact h.2.2

theorem getD_mem_of_lt {α : Type} {l : List α} {i : Nat} (h : i < l.length) (d : α) :
    l.getD i d ∈ l := by
  rw [List.getD_eq_getElem l d h]
  exact List.getElem_mem h

theorem alookup_mem {α β : Type} [DecidableEq α] :
    ∀ (l : List (α × β)) (k : α) (v : β), alookup l k = some v → (k, v) ∈ l := by
  intro l
  induction l with
  | nil => intro k v h; cases h
  | cons p rest ih =>
      intro k v h
      obtain ⟨k', v'⟩ := p
      simp only [alookup] at h
      by_cases hk : k' = k
      · rw [if_pos hk] at h
        rw [Option.some.injEq] at h
        subst hk; subst h
        exact List.mem_cons_self _ _
      · rw [if_neg hk] at h
        exact List.mem_cons_of_mem _ (ih k v h)

theorem mem_aset {α β : Type} [DecidableEq α] :
    ∀ (l : List (α × β)) (k : α) (v : β) (p : α × β),
      p ∈ aset l k v → p ∈ l ∨ p = (k, v) := by
  intro l
  induction l with
  | nil =>
      intro k v p h
      simp only [aset, List.mem_singleton] at h
      exact Or.inr h
  | cons q rest ih =>
      intro k v p h
      obtain ⟨k', v'⟩ := q
      simp only [aset] at h
      by_cases hk : k' = k
      · rw [if_pos hk] at h
        rcases List.mem_cons.mp h with h' | h'
        · exact Or.inr h'
        · exact Or.inl (List.mem_cons_of_mem _ h')
      · rw [if_neg hk] at h
        rcases List.mem_cons.mp h with h' | h'
        · exact Or.inl (h' ▸ List.mem_cons_self _ _)
        · rcases ih k v p h' with h'' | h''
          · exact Or.inl (List.mem_cons_of_mem _ h'')
          · exact Or.inr h''

theorem cutView_tick_abs (g note tick : Nat) (e : ChartEvent) :
    (cutView g note tick e).tick_abs = e.tick_abs := by
  unfold cutView
  split_ifs <;> rfl

theorem cutView_tick_end (g note tick : Nat) (e : ChartEvent)
    (h : (e.tick_abs : Int) + g ≤ e.tick_end_abs) :
    (e.tick_abs : Int) + g ≤ (cutView g note tick e).tick_end_abs := by
  unfold cutView
  split_ifs
  · exact le_max_left _ _
  · exact le_max_left _ _
  · exact h

theorem isFree_spec (tick : Nat) (e : ChartEvent) (h : isFree tick e = true) :
    e.usec_end_abs ≠ -1 ∧ e.tick_end_abs < (tick : Int) := by
  simpa [isFree] using h

theorem laneNoteOn_found (g : Nat) (st : LaneState) (ch note v tick : Nat)
    (i id : Nat) (e' : ChartEvent)
    (h : findFree st.store g note tick ((alookup st.on_notes ch).getD []) =
      some (i, id, e')) :
    laneNoteOn true g st ch note v tick =
      { store := st.store.set id { st.store.getD id dfltEvent with
            tick_end_abs := e'.tick_end_abs, usec_end_abs := e'.usec_end_abs } ++
          [{ msg := .noteOn ch note v, tick_abs := tick,
             tick_end_abs := (tick : Int) + g, usec_abs := -1, usec_end_abs := -1 }]
        on_notes := aset st.on_notes ch
          (((alookup st.on_notes ch).getD []).set i st.store.length)
        note_events := laneAppend st.note_events (ch, i) st.store.length } := by
  simp [laneNoteOn, h]

theorem laneNoteOn_notFound (g : Nat) (st : LaneState) (ch note v tick : Nat)
    (h : findFree st.store g note tick ((alookup st.on_notes ch).getD []) = none) :
    laneNoteOn true g st ch note v tick =
      { store := st.store ++
          [{ msg := .noteOn ch note v, tick_abs := tick,
             tick_end_abs := (tick : Int) + g, usec_abs := -1, usec_end_abs := -1 }]
        on_notes := aset st.on_notes ch
          (((alookup st.on_notes ch).getD []) ++ [st.store.length])
        note_events := laneAppend st.note_events
          (ch, ((alookup st.on_notes ch).getD []).length) st.store.length } := by
  simp [laneNoteOn, h]

theorem laneNoteOn_invariant (g : Nat) (st : LaneState) (ch note v tick : Nat)
    (h : StoreInvariant g st) : StoreInvariant g (laneNoteOn true g st ch note v tick) := by
  obtain ⟨hP, hV⟩ := h
  cases hff : findFree st.store g note tick ((alookup st.on_notes ch).getD []) with
  | none =>
      rw [laneNoteOn_notFound g st ch note v tick hff]
      constructor
      · intro rec hrec
        rcases List.mem_append.mp hrec with hr | hr
        · exact hP rec hr
        · rw [List.mem_singleton] at hr
          subst hr
          exact ⟨le_refl _, fun _ => rfl⟩
      · intro p hp id hid
        simp only [List.length_append, List.length_singleton]
        rcases mem_aset _ _ _ _ hp with hp' | hp'
        · have := hV p hp' id hid; omega
        · subst hp'
          rcases List.mem_append.mp hid with hid' | hid'
          · cases halk : alookup st.on_notes ch with
            | none => rw [halk] at hid'; cases hid'
            | some slots0 =>
                rw [halk] at hid'
                have := hV (ch, slots0) (alookup_mem _ _ _ halk) id hid'
                omega
          · rw [List.mem_singleton] at hid'
            omega
  | some r =>
      obtain ⟨i, id, e'⟩ := r
      obtain ⟨s1, s2, s3, s4, s5⟩ := findFree_some_spec st.store g note tick _ i id e' hff
      have hid_lt : id < st.store.length := by
        cases halk : alookup st.on_notes ch with
        | none =>
            rw [halk] at hff
            simp [findFree] at hff
        | some slots0 =>
            rw [halk] at s1 s2
            have hmem : id ∈ slots0 := by
              rw [← s2]
              exact getD_mem_of_lt (by simpa using s1) 0
            exact hV (ch, slots0) (alookup_mem _ _ _ halk) id hmem
      have horig := hP (st.store.getD id dfltEvent) (getD_mem_of_lt hid_lt dfltEvent)
      have hfree := isFree_spec tick _ (by unfold noteFree at s3; exact s3)
      rw [laneNoteOn_found g st ch note v tick i id e' hff]
      constructor
      · intro rec hrec
        rcases List.mem_append.mp hrec with hr | hr
        · rcases List.mem_or_eq_of_mem_set hr with hr' | hr'
          · exact hP rec hr'
          · subst hr'
            constructor
            · show (↑(st.store.getD id dfltEvent).tick_abs : Int) + g ≤ e'.tick_end_abs
              rw [s5]
              exact cutView_tick_end g note tick _ horig.1
            · intro hc
              rw [s5] at hc ⊢
              exact absurd hc hfree.1
        · rw [List.mem_singleton] at hr
          subst hr
          exact ⟨le_refl _, fun _ => rfl⟩
      · intro p hp id' hid'
        simp only [List.length_append, List.length_singleton, List.length_set]
        rcases mem_aset _ _ _ _ hp with hp' | hp'
        · have := hV p hp' id' hid'; omega
        · subst hp'
          rcases List.mem_or_eq_of_mem_set hid' with hid'' | hid''
          · cases halk : alookup st.on_notes ch with
            | none => rw [halk] at hid''; cases hid''
            | some slots0 =>
                rw [halk] at hid''
                have := hV (ch, slots0) (alookup_mem _ _ _ halk) id' hid''
                omega
          · omega

theorem laneNoteOff_none (g : Nat) (st : LaneState) (ch note tick : Nat)
    (h1 : alookup st.on_notes ch = none) : laneNoteOff g st ch note tick = st := by
  simp [laneNoteOff, h1]

theorem laneNoteOff_noOpen (g : Nat) (st : LaneState) (ch note tick : Nat)
    (slots : List Nat) (h1 : alookup st.on_notes ch = some slots)
    (h2 : findOpenRev st.store note slots = none) :
    laneNoteOff g st ch note tick = st := by
  simp [laneNoteOff, h1, h2]

theorem laneNoteOff_found (g : Nat) (st : LaneState) (ch note tick : Nat)
    (slots : List Nat) (id : Nat) (h1 : alookup st.on_notes ch = some slots)
    (h2 : findOpenRev st.store note slots = some id) :
    laneNoteOff g st ch note tick =
      { st with store := st.store.set id ({ st.store.getD id dfltEvent with
          tick_end_abs :=
            max (((st.store.getD id dfltEvent).tick_abs : Int) + g) (tick : Int),
          usec_end_abs := -2 }) } := by
  simp [laneNoteOff, h1, h2]

theorem laneNoteOff_invariant (g : Nat) (st : LaneState) (ch note tick : Nat)
    (h : StoreInvariant g st) : StoreInvariant g (laneNoteOff g st ch note tick) := by
  obtain ⟨hP, hV⟩ := h
  cases h1 : alookup st.on_notes ch with
  | none => rw [laneNoteOff_none g st ch note tick h1]; exact ⟨hP, hV⟩
  | some slots =>
      cases h2 : findOpenRev st.store note slots with
      | none => rw [laneNoteOff_noOpen g st ch note tick slots h1 h2]; exact ⟨hP, hV⟩
      | some id =>
          rw [laneNoteOff_found g st ch note tick slots id h1 h2]
          constructor
          · intro rec hrec
            rcases List.mem_or_eq_of_mem_set hrec with hr | hr
            · exact hP rec hr
            · subst hr
              constructor
              · exact le_max_left _ _
              · intro hc; cases hc
          · intro p hp id' hid'
            rw [List.length_set]
            exact hV p hp id' hid'

theorem processRaw_invariant (g : Nat) :
    ∀ (raws : List ChartEvent) (st : LaneState),
      StoreInvariant g st → StoreInvariant g (processRaw true g st raws) := by
  intro raws
  induction raws with
  | nil => intro st h; exact h
  | cons e rest ih =>
      intro st h
      simp only [processRaw]
      apply ih
      cases hm : e.msg with
      | timeSignature n d => simp only [hm]; exact h
      | setTempo t => simp only [hm]; exact h
      | noteOn ch n v =>
          simp only [hm]
          by_cases hv : 0 < v
          · rw [if_pos hv, if_neg (not_not_intro trivial)]
            exact laneNoteOn_invariant g st ch n v e.tick_abs h
          · rw [if_neg hv, if_pos trivial]
            exact laneNoteOff_invariant g st ch n e.tick_abs h
      | noteOff ch n =>
          simp only [hm]
          rw [if_pos trivial]
          exact laneNoteOff_invariant g st ch n e.tick_abs h

/-- Claim C7 counterexample: with `minGapTicks = 10`, the pitch-60 note
occupying slot 0 of channel 0 ends at tick 100 and survives to the
quantizer (its regeneration block is non-empty); the next note in the
same slot (lane `(0, 0)` holds ids `[0, 1]`) starts at tick 101; the
claimed bound `end ≤ nextNoteStart - minGapTicks` would require
`100 ≤ 91` and is violated. -/
theorem c7_counterexample :
    ((processRaw true 10 initLaneState rawsGapDemo).store.getD 0 dfltEvent).tick_end_abs =
      100 ∧
    ((processRaw true 10 initLaneState rawsGapDemo).store.getD 1 dfltEvent).tick_abs =
      101 ∧
    alookup (processRaw true 10 initLaneState rawsGapDemo).note_events (0, 0) =
      some [0, 1] ∧
    regenBlock ((processRaw true 10 initLaneState rawsGapDemo).store.getD 0 dfltEvent) ≠
      [] ∧
    ¬ (((processRaw true 10 initLaneState rawsGapDemo).store.getD 0
        dfltEvent).tick_end_abs ≤ (101 : Int) - 10) := by
  decide

/-- Claim C7 as amended: in sustain mode every stored note's end is
clamped to at least `start + minGapTicks`, and a note still open at end
of processing keeps exactly the minimum length `start + minGapTicks`
(first conjunct); the upper bound `nextNoteStart - minGapTicks` is not
guaranteed — a reused slot only guarantees that its occupant is marked
ended with end tick strictly before the new note's start (fifth
conjunct).  Regeneration discards exactly the notes whose clamped end
is not after their start (second conjunct), and synthesizes for each
surviving note a matching note-off event at its clamped end tick (third
conjunct); hence an unterminated note-on is closed at the minimum
length and, when `minGapTicks ≥ 1`, reaches the quantizer rather than
being silently dropped (fourth conjunct). -/
theorem c7_note_end_clamping :
    (∀ (g : Nat) (raws : List ChartEvent) (rec : ChartEvent),
      rec ∈ (processRaw true g initLaneState raws).store →
      (rec.tick_abs : Int) + g ≤ rec.tick_end_abs ∧
      (rec.usec_end_abs = -1 → rec.tick_end_abs = (rec.tick_abs : Int) + g)) ∧
    (∀ e : ChartEvent, e.tick_end_abs ≤ (e.tick_abs : Int) → regenBlock e = []) ∧
    (∀ e : ChartEvent, (e.tick_abs : Int) < e.tick_end_abs →
      regenBlock e = [e, { msg := MidiMsg.noteOff e.msg.channel e.msg.note,
                           tick_abs := e.tick_end_abs.toNat, tick_end_abs := -1,
                           usec_abs := -1, usec_end_abs := -1 }]) ∧
    (∀ (g : Nat) (raws : List ChartEvent) (rec : ChartEvent),
      rec ∈ (processRaw true g initLaneState raws).store → rec.usec_end_abs = -1 →
      1 ≤ g → regenBlock rec ≠ []) ∧
    (∀ (store : List ChartEvent) (g note tick : Nat) (slots : List Nat)
      (i id : Nat) (e' : ChartEvent),
      findFree store g note tick slots = some (i, id, e') →
      e'.usec_end_abs ≠ -1 ∧ e'.tick_end_abs < (tick : Int)) := by
  have hinv : ∀ (g : Nat) (raws : List ChartEvent),
      StoreInvariant g (processRaw true g initLaneState raws) := by
    intro g raws
    apply processRaw_invariant
    exact ⟨fun rec hrec => absurd hrec (List.not_mem_nil rec),
      fun p hp => absurd hp (List.not_mem_nil p)⟩
  refine ⟨?_, ?_, ?_, ?_, ?_⟩
  · intro g raws rec hrec
    exact (hinv g raws).1 rec hrec
  · intro e h
    unfold regenBlock
    rw [if_neg (not_lt.mpr h)]
  · intro e h
    unfold regenBlock
    rw [if_pos h]
  · intro g raws rec hrec hopen hg
    have h1 := (hinv g raws).1 rec hrec
    have h2 : (rec.tick_abs : Int) < rec.tick_end_abs := by
      have := h1.1
      omega
    unfold regenBlock
    rw [if_pos h2]
    simp
  · intro store g note tick slots i id e' h
    obtain ⟨s1, s2, s3, s4, s5⟩ := findFree_some_spec store g note tick slots i id e' h
    have := isFree_spec tick (cutView g note tick (store.getD id dfltEvent))
      (by unfold noteFree at s3; exact s3)
    rw [s5]
    exact this

/-- Witness for C7 at the concrete two-note scenario. -/
theorem c7_note_end_clamping_witness :
    (((processRaw true 10 initLaneState rawsGapDemo).store.getD 0
        dfltEvent).tick_abs : Int) + 10 ≤
      ((processRaw true 10 initLaneState rawsGapDemo).store.getD 0
        dfltEvent).tick_end_abs := by
  have h := c7_note_end_clamping.1 10 rawsGapDemo
    ((processRaw true 10 initLaneState rawsGapDemo).store.getD 0 dfltEvent) (by decide)
  exact h.1
